import Mathlib

/-!
Verification of the vulnerability-scanner core (Snyk/OSV security scanner).

This file gives a shallow embedding in Lean of the scanner's pure core:

* the OSV version-range matcher (`isVersionInSemverRange` in src/semver.ts),
* the two severity classifiers (`mapSeverityToLevel` in the OSV file
  src/severity.ts and in the Snyk file, checked against each other),
* the CVSS score extraction (`parseCVSSScore`, `extractHighestCVSSScore`),
* the advisory processor (`VulnerabilityProcessor` in src/processor.ts),
* the Snyk client's issue conversion and batch-error routing
  (`SnykClient.convertIssuesToVulnerabilities`, `SnykClient.queryInBatches`),
* the top-level scan error handling (src/index.ts),
* the retry executor (`withRetry` in src/retry.ts).

JavaScript numbers that hold CVSS scores and retry delays are modelled as
rationals (all values involved are exact decimals), and JS `Map` objects as
insertion-ordered association lists with JS `Map.set` semantics (updating an
existing key keeps its position).
-/

/-! ### Character/string helpers (kernel-evaluable stand-ins for JS string ops) -/

/-- Numeric value of a decimal digit string (list of chars, most significant
first). Helper for the number parsers below. -/
def digitsToNat (cs : List Char) : Nat :=
  cs.foldl (fun n c => n * 10 + (c.toNat - 48)) 0

/-- Whether `sub` occurs as a contiguous substring of `l`
(JS `String.prototype.includes`). -/
def hasSubstr (sub : List Char) : List Char → Bool
  | [] => sub.isEmpty
  | c :: rest => sub.isPrefixOf (c :: rest) || hasSubstr sub rest

/-- JS whitespace test for the characters `trim` strips (ASCII subset). -/
def isJsWs (c : Char) : Bool :=
  c = ' ' || c = '\t' || c = '\n' || c = '\r'

/-- JS `String.prototype.trim` (ASCII whitespace subset). -/
def strTrim (s : String) : String :=
  ⟨(((s.data.dropWhile isJsWs).reverse.dropWhile isJsWs).reverse)⟩

/-- JS `parseFloat`, restricted to the plain decimal forms the scanner feeds
it (optional sign, digits, optional fraction; trailing junk ignored; no
exponents or Infinity, which never occur in CVSS data). Returns `none` for
NaN. -/
def parseFloatJS (s : String) : Option ℚ :=
  let cs := s.data.dropWhile isJsWs
  let signed : Bool × List Char :=
    match cs with
    | '-' :: r => (true, r)
    | '+' :: r => (false, r)
    | _ => (false, cs)
  let intPart := signed.2.takeWhile Char.isDigit
  let rest := signed.2.dropWhile Char.isDigit
  let fracPart : List Char :=
    match rest with
    | '.' :: r => r.takeWhile Char.isDigit
    | _ => []
  if intPart.isEmpty && fracPart.isEmpty then none
  else
    let mag : Int := Int.ofNat (digitsToNat (intPart ++ fracPart))
    some (mkRat (if signed.1 then -mag else mag) ((10 : Nat) ^ fracPart.length))

/-! ### Semantic versions

`Bun.semver` (an external runtime library) is modelled for plain
`MAJOR.MINOR.PATCH` versions: comparison is lexicographic on the three
numeric components, and an unparseable version never satisfies a range
(the source wraps the call in try/catch returning false). -/

structure SemVer where
  major : Nat
  minor : Nat
  patch : Nat
deriving DecidableEq, Repr

def SemVer.lt (a b : SemVer) : Bool :=
  if a.major ≠ b.major then decide (a.major < b.major)
  else if a.minor ≠ b.minor then decide (a.minor < b.minor)
  else decide (a.patch < b.patch)

def SemVer.le (a b : SemVer) : Bool :=
  decide (a = b) || SemVer.lt a b

/-- Split a character list on `.` separators. -/
def splitDots : List Char → List (List Char)
  | [] => [[]]
  | '.' :: rest => [] :: splitDots rest
  | c :: rest =>
    match splitDots rest with
    | h :: t => (c :: h) :: t
    | [] => [[c]]

/-- Parse a nonempty all-digit component. -/
def natOfDigits (cs : List Char) : Option Nat :=
  if !cs.isEmpty && cs.all Char.isDigit then some (digitsToNat cs) else none

/-- Parse a plain `MAJOR.MINOR.PATCH` version string. -/
def parseSemVer (s : String) : Option SemVer :=
  match splitDots s.data with
  | [a, b, c] =>
    match natOfDigits a, natOfDigits b, natOfDigits c with
    | some x, some y, some z => some ⟨x, y, z⟩
    | _, _, _ => none
  | _ => none

/-! ### OSV range matching (src/semver.ts, `isVersionInSemverRange`) -/

/-- One OSV range event (`introduced` / `fixed` / `last_affected`). -/
structure RangeEvent where
  introduced : Option String := none
  fixed : Option String := none
  last_affected : Option String := none
deriving DecidableEq, Repr

/-- One comparator pushed onto `rangeExpressions` by the source:
`"*"`, `">=V"`, `"<V"` or `"<=V"`. -/
inductive SemverConstraint where
  | star
  | ge (v : String)
  | lt (v : String)
  | le (v : String)
deriving DecidableEq, Repr

/-- The comparators one event contributes, in the order the source pushes
them. A field holding the empty string is skipped (JS truthiness of
`event.introduced` etc.); `introduced: "0"` becomes the wildcard. -/
def eventConstraints (e : RangeEvent) : List SemverConstraint :=
  (match e.introduced with
   | some v => if v = "" then [] else if v = "0" then [.star] else [.ge v]
   | none => []) ++
  (match e.fixed with
   | some v => if v = "" then [] else [.lt v]
   | none => []) ++
  (match e.last_affected with
   | some v => if v = "" then [] else [.le v]
   | none => [])

/-- Satisfaction of one comparator by a parsed version
(`Bun.semver.satisfies` on a single comparator; an unparseable bound makes
the whole range invalid, hence false). -/
def satisfiesConstraint (ver : SemVer) (c : SemverConstraint) : Bool :=
  match c with
  | .star => true
  | .ge s => match parseSemVer s with
    | some w => SemVer.le w ver
    | none => false
  | .lt s => match parseSemVer s with
    | some w => SemVer.lt ver w
    | none => false
  | .le s => match parseSemVer s with
    | some w => SemVer.le ver w
    | none => false

/-- `Bun.semver.satisfies version (space-joined comparators)`: the space in a
node-semver range is conjunction, so a version satisfies the combined range
iff it satisfies every comparator. -/
def semverSatisfies (version : String) (cs : List SemverConstraint) : Bool :=
  match parseSemVer version with
  | some v => cs.all (satisfiesConstraint v)
  | none => false

/-- src/semver.ts `isVersionInSemverRange`: build `rangeExpressions` by
looping over the events (modelled as a fold appending each event's
comparators), return false if none were produced, otherwise test the
version against the AND of all of them. -/
def isVersionInSemverRange (version : String) (events : List RangeEvent) : Bool :=
  let rangeExpressions := events.foldl (fun acc e => acc ++ eventConstraints e) []
  if rangeExpressions.isEmpty then false
  else semverSatisfies version rangeExpressions

/-- Written from the spec's words for comparison: translate each event
independently and conjoin (logical AND) all translated constraints; no
constraints means no match. -/
def specRangeMatch (version : String) (events : List RangeEvent) : Bool :=
  let cs := (events.map eventConstraints).flatten
  !cs.isEmpty &&
    cs.all (fun c =>
      match parseSemVer version with
      | some v => satisfiesConstraint v c
      | none => false)

/-! ### Severity classification

Two classifiers coexist in the repository: the OSV one (src/severity.ts,
vendor label first) and the Snyk one (CVSS score first). Both share the
configured threshold `SECURITY.CVSS_FATAL_THRESHOLD = 7.0`. -/

/-- Advisory level returned by both classifiers. -/
inductive AdvisoryLevel where
  | fatal
  | warn
deriving DecidableEq, Repr

/-- `SECURITY.CVSS_FATAL_THRESHOLD` (constants.ts). -/
def CVSS_FATAL_THRESHOLD : ℚ := 7

/-- `SECURITY.FATAL_SEVERITIES` (constants.ts, both variants of the file). -/
def FATAL_SEVERITIES : List String := ["CRITICAL", "HIGH"]

/-- One entry of an OSV vulnerability's `severity` array. -/
structure OSVSeverity where
  type : String
  score : String
deriving DecidableEq, Repr

/-- `database_specific` of an OSV vulnerability (only the `severity` field is
read; non-string values behave like an absent/non-fatal label and are not
modelled separately). -/
structure DatabaseSpecific where
  severity : Option String := none
deriving DecidableEq, Repr

/-- The fields of an OSV vulnerability record the severity classifier reads. -/
structure OSVVulnerability where
  id : String
  summary : Option String := none
  database_specific : Option DatabaseSpecific := none
  severity : Option (List OSVSeverity) := none
deriving DecidableEq, Repr

/-- The first (leftmost, hence longest) suffix of `s` matching the regex
alternation `(\d+\.\d+|\d+)$`, parsed as a rational. This is what both
regexes in src/severity.ts `parseCVSSScore` capture when they match. -/
def trailingNumber (s : String) : Option ℚ :=
  let rev := s.data.reverse
  let d1 := rev.takeWhile Char.isDigit
  if d1.isEmpty then none
  else
    match rev.dropWhile Char.isDigit with
    | '.' :: r =>
      let d2 := r.takeWhile Char.isDigit
      if d2.isEmpty then some (mkRat (Int.ofNat (digitsToNat d1.reverse)) 1)
      else some (mkRat (Int.ofNat (digitsToNat (d2.reverse ++ d1.reverse))) ((10 : Nat) ^ d1.length))
    | _ => some (mkRat (Int.ofNat (digitsToNat d1.reverse)) 1)

/-- The plain-numeric path of `parseCVSSScore`: `parseFloat` the whole string
and reject NaN and scores outside `[0, 10]`. -/
def plainNumericScore (s : String) : Option ℚ :=
  match parseFloatJS s with
  | some q => if 0 ≤ q ∧ q ≤ 10 then some q else none
  | none => none

/-- src/severity.ts `parseCVSSScore`. When the string contains `"CVSS:"`, the
two vector regexes both reduce to extracting the trailing number, which is
returned without any range validation; only on regex failure (or when no
`"CVSS:"` marker is present) does the plain-numeric path with its `[0, 10]`
range check run. -/
def parseCVSSScore (scoreString : String) : Option ℚ :=
  if hasSubstr "CVSS:".data scoreString.data then
    match trailingNumber scoreString with
    | some q => some q
    | none => plainNumericScore scoreString
  else plainNumericScore scoreString

/-- src/severity.ts `extractHighestCVSSScore`: fold over the entries whose
`type` starts with `"CVSS"`, keeping the maximum parsed score. -/
def extractHighestCVSSScore (severities : List OSVSeverity) : Option ℚ :=
  severities.foldl
    (fun highest sev =>
      if "CVSS".data.isPrefixOf sev.type.data then
        match parseCVSSScore sev.score with
        | some score =>
          match highest with
          | some h => if h < score then some score else some h
          | none => some score
        | none => highest
      else highest)
    none

/-- `vuln.database_specific?.severity`. -/
def dbSeverity (vuln : OSVVulnerability) : Option String :=
  vuln.database_specific.bind (fun d => d.severity)

/-- The OSV `dbSeverity && isFatalSeverity(dbSeverity)` test (an empty string
is falsy in JS). -/
def dbSeverityFatal (vuln : OSVVulnerability) : Bool :=
  match dbSeverity vuln with
  | some s => !(s = "") && FATAL_SEVERITIES.contains s
  | none => false

/-- src/severity.ts `mapSeverityToLevel` (OSV variant): database severity
label first, then the highest CVSS score against the threshold, then the
default `warn`. -/
def Osv.mapSeverityToLevel (vuln : OSVVulnerability) : AdvisoryLevel :=
  if dbSeverityFatal vuln then .fatal
  else
    match vuln.severity with
    | some sevs =>
      match extractHighestCVSSScore sevs with
      | some cvssScore => if CVSS_FATAL_THRESHOLD ≤ cvssScore then .fatal else .warn
      | none => .warn
    | none => .warn

/-! ### Snyk data model and classifier -/

/-- The internal vulnerability type of the Snyk scanner (schema.ts
`SnykVulnerability`). `cvssScore` is a JS number, modelled as a rational. -/
structure SnykVulnerability where
  id : String
  title : Option String := none
  description : Option String := none
  severity : Option String := none
  cvssScore : Option ℚ := none
  url : Option String := none
  packageName : Option String := none
  packageVersion : Option String := none
deriving DecidableEq, Repr

/-- Snyk `isFatalSeverity`: the lowercase label set. -/
def Snyk.isFatalSeverity (severity : String) : Bool :=
  severity = "critical" || severity = "high"

/-- The Snyk classifier's fallback once the CVSS branch has not returned:
check the Snyk severity label, defaulting to `warn`. -/
def Snyk.severityCheck (vuln : SnykVulnerability) : AdvisoryLevel :=
  match vuln.severity with
  | some s => if Snyk.isFatalSeverity s then .fatal else .warn
  | none => .warn

/-- Snyk `mapSeverityToLevel`: the CVSS score is priority 1 — a valid score
in `[7, 10]` is fatal, a valid score in `[0, 7)` is warn immediately, and
only an absent or out-of-range score falls through to the severity label. -/
def Snyk.mapSeverityToLevel (vuln : SnykVulnerability) : AdvisoryLevel :=
  match vuln.cvssScore with
  | some c =>
    if CVSS_FATAL_THRESHOLD ≤ c ∧ c ≤ 10 then .fatal
    else if 0 ≤ c ∧ c < CVSS_FATAL_THRESHOLD then .warn
    else Snyk.severityCheck vuln
  | none => Snyk.severityCheck vuln

deriving instance DecidableEq for Except

/-! ### Advisory processor (src/processor.ts, Snyk variant) -/

/-- A package supplied by the host (`Bun.Security.Package`, restricted to the
fields the core reads: `name` and resolved `version`). -/
structure Package where
  name : String
  version : String
deriving DecidableEq, Repr

/-- `Bun.Security.Advisory` as built by `createAdvisory`. -/
structure Advisory where
  id : String
  message : String
  level : AdvisoryLevel
  package : String
  url : Option String
  description : Option String
deriving DecidableEq, Repr

/-- The `name@version` key used by both package maps. -/
def pkgKey (p : Package) : String :=
  p.name ++ "@" ++ p.version

/-- JS `Map.prototype.set` on an insertion-ordered association list: an
existing key keeps its position and gets the new value, a new key is
appended. -/
def mapSet : List (String × Package) → String → Package → List (String × Package)
  | [], k, p => [(k, p)]
  | (k', p') :: rest, k, p =>
    if k' = k then (k', p) :: rest else (k', p') :: mapSet rest k p

/-- The processor's package map: `packageMap.set(name@version, pkg)` for each
input package in order. -/
def mkPackageMap (packages : List Package) : List (String × Package) :=
  packages.foldl (fun m p => mapSet m (pkgKey p) p) []

/-- JS `Map.prototype.get`. -/
def mapGet (m : List (String × Package)) (k : String) : Option Package :=
  (m.find? (fun e => e.1 == k)).map (fun e => e.2)

/-- `packageMap.values().next().value`: the value stored under the
first-inserted key. -/
def firstMapValue (m : List (String × Package)) : Option Package :=
  m.head?.map (fun e => e.2)

/-- `VulnerabilityProcessor.findMatchingPackage`: use the vulnerability's own
package info when both fields are truthy, otherwise fall back to the first
package in the map. -/
def findMatchingPackage (vuln : SnykVulnerability) (packageMap : List (String × Package)) :
    Option Package :=
  match vuln.packageName, vuln.packageVersion with
  | some n, some v =>
    if n ≠ "" ∧ v ≠ "" then mapGet packageMap (n ++ "@" ++ v)
    else firstMapValue packageMap
  | _, _ => firstMapValue packageMap

/-- `vuln.title?.trim()` fallback used when the description is absent or
blank. -/
def fallbackTitle (vuln : SnykVulnerability) : Option String :=
  match vuln.title with
  | some t =>
    let t' := strTrim t
    if t'.data.length ≠ 0 then some t' else none
  | none => none

/-- JS regex `^[^.!?]*[.!?]` applied to the character list: the shortest
prefix ending in a sentence terminator, if any. -/
def firstSentenceAux : List Char → Option (List Char)
  | [] => none
  | c :: rest =>
    if c = '.' ∨ c = '!' ∨ c = '?' then some [c]
    else (firstSentenceAux rest).map (fun cs => c :: cs)

/-- `VulnerabilityProcessor.getVulnerabilityDescription`: trimmed
description if non-blank (trying the first sentence when over 200 chars,
else hard-truncating to 197 chars plus `"..."`), else trimmed title, else
null. -/
def getVulnerabilityDescription (vuln : SnykVulnerability) : Option String :=
  match vuln.description with
  | some d0 =>
    let d := strTrim d0
    if d.data.length ≠ 0 then
      if 200 < d.data.length then
        match firstSentenceAux d.data with
        | some fs =>
          if fs.length ≤ 200 then some ⟨fs⟩
          else some (⟨d.data.take 197⟩ ++ "...")
        | none => some (⟨d.data.take 197⟩ ++ "...")
      else some d
    else fallbackTitle vuln
  | none => fallbackTitle vuln

/-- `VulnerabilityProcessor.createAdvisory`. `vuln.title || vuln.id` and
`vuln.url || null` follow JS truthiness (empty string falls through). -/
def createAdvisory (vuln : SnykVulnerability) (pkg : Package) : Advisory :=
  { id := vuln.id
    message :=
      match vuln.title with
      | some t => if t = "" then vuln.id else t
      | none => vuln.id
    level := Snyk.mapSeverityToLevel vuln
    package := pkg.name
    url :=
      match vuln.url with
      | some u => if u = "" then none else some u
      | none => none
    description := getVulnerabilityDescription vuln }

/-- `VulnerabilityProcessor.processVulnerabilities`: empty input short
circuits; otherwise each vulnerability that finds a matching package
contributes exactly one advisory, in input order. -/
def processVulnerabilities (vulnerabilities : List SnykVulnerability) (packages : List Package) :
    List Advisory :=
  if vulnerabilities.isEmpty || packages.isEmpty then []
  else
    let packageMap := mkPackageMap packages
    vulnerabilities.filterMap
      (fun vuln => (findMatchingPackage vuln packageMap).map (createAdvisory vuln))

/-! ### Snyk client: issue conversion and batch-error routing (client.ts) -/

/-- One entry of a Snyk issue's `references` array (only `url` is read). -/
structure SnykReference where
  url : String
deriving DecidableEq, Repr

/-- The Snyk issue attributes the conversion reads. -/
structure SnykIssueAttributes where
  title : Option String := none
  severity : Option String := none
  effectiveSeverityLevel : Option String := none
  cvssScore : Option ℚ := none
  description : Option String := none
  references : Option (List SnykReference) := none
deriving DecidableEq, Repr

/-- One issue of a Snyk batch response. -/
structure SnykIssue where
  id : String
  attributes : SnykIssueAttributes
deriving DecidableEq, Repr

/-- JS `a || b` on optional strings (an empty string is falsy). -/
def jsOrStr (a b : Option String) : Option String :=
  match a with
  | some s => if s = "" then b else some s
  | none => b

/-- `SnykClient.convertIssuesToVulnerabilities`: note that it never sets
`packageName` or `packageVersion` on the produced records (the package map
argument is unused in the source as well). -/
def convertIssuesToVulnerabilities (issues : List SnykIssue)
    (_packageMap : List (String × Package)) : List SnykVulnerability :=
  issues.map fun issue =>
    let attrs := issue.attributes
    { id := issue.id
      title := attrs.title
      description := jsOrStr attrs.description attrs.title
      severity := jsOrStr attrs.effectiveSeverityLevel attrs.severity
      cvssScore := attrs.cvssScore
      url :=
        match attrs.references with
        | some (r :: _) => some r.url
        | _ => none }

/-- The two kinds of exception that can leave the client: the dedicated
`SnykPermissionError` and every other `Error`. -/
inductive ScanException where
  | permission (msg : String)
  | generic (msg : String)
deriving DecidableEq, Repr

/-- `SnykClient.executeBatchQuery`'s handling of the HTTP status of a batch
response: 403 raises `SnykPermissionError` (message shown is the default
used when the error body does not parse), 429 raises a rate-limit `Error`
(the `Retry-After` variant of the message is not modelled), any other
non-2xx status raises a generic `Error`; a 2xx response succeeds. -/
def batchResponseError (status : Nat) (statusText : String) : Option ScanException :=
  if status = 403 then
    some (.permission "Organization is not allowed to perform this action.")
  else if status = 429 then
    some (.generic "Rate limit exceeded.")
  else if status < 200 ∨ 299 < status then
    some (.generic ("Snyk API returned " ++ toString status ++ ": " ++ statusText))
  else none

/-- Outcome of one batch request given its HTTP status (issues returned on
success). -/
def batchOutcome (status : Nat) (statusText : String) (issues : List SnykIssue) :
    Except ScanException (List SnykIssue) :=
  match batchResponseError status statusText with
  | some e => .error e
  | none => .ok issues

/-- One iteration of the `queryInBatches` loop: once a permission error has
been thrown no further batch runs (the error absorbs); a successful batch
appends its issues; a generic batch failure is logged and skipped. -/
def queryInBatchesStep (acc : Except ScanException (List SnykIssue))
    (batch : Except ScanException (List SnykIssue)) : Except ScanException (List SnykIssue) :=
  match acc with
  | .error e => .error e
  | .ok issues =>
    match batch with
    | .ok more => .ok (issues ++ more)
    | .error (ScanException.permission m) => .error (.permission m)
    | .error (ScanException.generic _) => .ok issues

/-- `SnykClient.queryInBatches`: iterate over the batches, re-throwing a
`SnykPermissionError` immediately and logging-and-skipping every other
failed batch. -/
def queryInBatches (batches : List (Except ScanException (List SnykIssue))) :
    Except ScanException (List SnykIssue) :=
  batches.foldl queryInBatchesStep (.ok [])

/-! ### Top-level scan (src/index.ts) -/

/-- The message of the `Error` re-thrown for a `SnykPermissionError` (the
source interpolates `error.message` into a longer fixed template; only the
varying part is modelled). -/
def permissionErrorMessage (m : String) : String :=
  "Snyk API permission denied. Error: " ++ m

/-- The catch block of `scanner.scan`: a `SnykPermissionError` is re-thrown
as a new `Error` (fail closed); every other exception yields the empty
advisory list (fail open); a successful pipeline returns its advisories. -/
def scanCatch (pipeline : Except ScanException (List Advisory)) : Except String (List Advisory) :=
  match pipeline with
  | .ok advisories => .ok advisories
  | .error (ScanException.permission m) => .error (permissionErrorMessage m)
  | .error (ScanException.generic _) => .ok []

/-- The scan pipeline from the batch outcomes: collect issues, convert them,
process them against the package list. -/
def scanPipeline (batches : List (Except ScanException (List SnykIssue))) (packages : List Package) :
    Except ScanException (List Advisory) :=
  (queryInBatches batches).map fun issues =>
    processVulnerabilities (convertIssuesToVulnerabilities issues (mkPackageMap packages)) packages

/-- `scanner.scan` as a function of the batch outcomes and the package
list. -/
def scanModel (batches : List (Except ScanException (List SnykIssue))) (packages : List Package) :
    Except String (List Advisory) :=
  scanCatch (scanPipeline batches packages)

/-! ### Retry executor (src/retry.ts) -/

/-- The JS values an operation can throw: a real `Error` or a non-`Error`
value (string, null, undefined, plain object). -/
inductive JSValue where
  | errObj (message : String)
  | strVal (s : String)
  | nullVal
  | undefinedVal
  | objVal
deriving DecidableEq, Repr

/-- JS `String(x)` on the modelled values (`String(err)` on an `Error`
prepends `"Error: "`). -/
def jsValueToString : JSValue → String
  | .errObj m => "Error: " ++ m
  | .strVal s => s
  | .nullVal => "null"
  | .undefinedVal => "undefined"
  | .objVal => "[object Object]"

/-- `error instanceof Error ? error : new Error(String(error))` — the
normalization `withRetry` applies to every caught value. -/
def normalizeError : JSValue → JSValue
  | .errObj m => .errObj m
  | v => .errObj (jsValueToString v)

/-- Whether a value is an `Error` instance. -/
def isErrObj : JSValue → Bool
  | .errObj _ => true
  | _ => false

/-- `error.message` of a (normalized) error. -/
def errMessage : JSValue → String
  | .errObj m => m
  | _ => ""

/-- `RetryConfig` (src/retry.ts): `shouldRetry` receives the normalized
`Error` (callers of the model pass a total function; the source's optional
field defaulting to retry is the constant-true function). -/
structure RetryConfig where
  maxAttempts : Nat
  delayMs : ℚ
  shouldRetry : JSValue → Bool

/-- `DEFAULT_RETRY_CONFIG.shouldRetry`: no retry when the message mentions
400/401/403 or 404, retry otherwise. -/
def defaultShouldRetry (e : JSValue) : Bool :=
  let m := (errMessage e).data
  if hasSubstr "400".data m || hasSubstr "401".data m || hasSubstr "403".data m then false
  else if hasSubstr "404".data m then false
  else true

/-- `DEFAULT_RETRY_CONFIG`: `OSV_API.MAX_RETRY_ATTEMPTS + 1 = 3` attempts,
`OSV_API.RETRY_DELAY_MS = 1000` base delay. -/
def DEFAULT_RETRY_CONFIG : RetryConfig :=
  ⟨3, 1000, defaultShouldRetry⟩

/-- What a run of `withRetry` produces: the returned value or the thrown
(normalized) error, how many times the operation was invoked, and the
sequence of back-off sleeps in order. -/
structure RetryResult (α : Type) where
  result : Except JSValue α
  calls : Nat
  delays : List ℚ
deriving DecidableEq, Repr

/-- The attempt loop of `withRetry`. `fuel + 1` is the number of attempts
still allowed (so the current attempt is the last one exactly when `fuel`
is `0`), `attempt` is the 1-indexed attempt counter, `delays` accumulates
sleeps in reverse. The operation is modelled as a function from the attempt
number to its outcome, with thrown values normalized exactly where the
source normalizes them. -/
def withRetryAux {α : Type} (op : Nat → Except JSValue α) (shouldRetry : JSValue → Bool)
    (delayMs : ℚ) : Nat → Nat → JSValue → List ℚ → RetryResult α
  | 0, attempt, lastError, delays => ⟨.error lastError, attempt - 1, delays.reverse⟩
  | fuel + 1, attempt, _, delays =>
    match op attempt with
    | .ok v => ⟨.ok v, attempt, delays.reverse⟩
    | .error raw =>
      let lastError := normalizeError raw
      if fuel = 0 || !shouldRetry lastError then
        ⟨.error lastError, attempt, delays.reverse⟩
      else
        withRetryAux op shouldRetry delayMs fuel (attempt + 1) lastError
          (delayMs * (3 / 2 : ℚ) ^ (attempt - 1) :: delays)

/-- src/retry.ts `withRetry`: run the loop from attempt 1 with the initial
`lastError = new Error("Unknown error")` (thrown unchanged when
`maxAttempts` is zero and the loop body never runs). -/
def withRetry {α : Type} (op : Nat → Except JSValue α) (config : RetryConfig) : RetryResult α :=
  withRetryAux op config.shouldRetry config.delayMs config.maxAttempts 1
    (.errObj "Unknown error") []

/-! ## Helper lemmas -/

/-- Folding an append over a list produces the flattened map appended to the
initial accumulator (shape of the `rangeExpressions` loop). -/
lemma foldl_append_constraints (l : List RangeEvent) (init : List SemverConstraint) :
    l.foldl (fun acc e => acc ++ eventConstraints e) init
      = init ++ (l.map eventConstraints).flatten := by
  induction l generalizing init with
  | nil => simp
  | cons e rest ih => simp [ih, List.append_assoc]

/-! ## Claims -/

/-- C4. The SEMVER range evaluation translates each event independently —
`introduced "0"` to an unbounded lower constraint, `introduced V` to
`>= V`, `fixed V` to `< V` (exclusive), `lastAffected V` to `<= V`
(inclusive) — and ANDs all constraints; in particular, for events
`[{introduced:"0"},{fixed:"2.0.0"}]` version `"1.9.9"` matches and
`"2.0.0"` does not, and for `lastAffected "4.17.0"` version `"4.17.0"`
matches and `"4.17.1"` does not. -/
theorem thm_C4_semver_range_events :
    (∀ version events, isVersionInSemverRange version events = specRangeMatch version events)
    ∧ isVersionInSemverRange "1.9.9"
        [{ introduced := some "0" }, { fixed := some "2.0.0" }] = true
    ∧ isVersionInSemverRange "2.0.0"
        [{ introduced := some "0" }, { fixed := some "2.0.0" }] = false
    ∧ isVersionInSemverRange "4.17.0" [{ last_affected := some "4.17.0" }] = true
    ∧ isVersionInSemverRange "4.17.1" [{ last_affected := some "4.17.0" }] = false := by
  refine ⟨?_, by decide, by decide, by decide, by decide⟩
  intro version events
  unfold isVersionInSemverRange specRangeMatch
  rw [foldl_append_constraints, List.nil_append]
  cases h : (events.map eventConstraints).flatten with
  | nil => simp [semverSatisfies]
  | cons c t =>
    unfold semverSatisfies
    cases hp : parseSemVer version with
    | some w => simp
    | none => simp [List.all_cons]

/-- C9. The processor produces at most one advisory per input vulnerability
record, so the advisory list is never longer than the vulnerability
list. -/
theorem thm_C9_length_bound (vulnerabilities : List SnykVulnerability) (packages : List Package) :
    (processVulnerabilities vulnerabilities packages).length ≤ vulnerabilities.length := by
  unfold processVulnerabilities
  split
  · simp
  · exact List.length_filterMap_le _ _

/-- A minimal Snyk vulnerability record used to exhibit duplicate-id
behaviour. -/
def dupVuln : SnykVulnerability := { id := "SNYK-1" }

/-- A concrete package. -/
def lodashPkg : Package := ⟨"lodash", "4.17.19"⟩

/-- C2 counterexample. Two input records with the same vulnerability id and a
single package produce two advisories for the same
(vulnerability id, package name, package version) triple: the processor has
no seen-pair set, so the output is not deduplicated by triple. -/
theorem thm_C2_duplicate_ids_counterexample :
    ((processVulnerabilities [dupVuln, dupVuln] [lodashPkg]).filter
      (fun a => a.id == "SNYK-1" && a.package == "lodash")).length = 2 := by
  decide

/-- The ids of the produced advisories form a sublist of the ids of the input
vulnerabilities (each record contributes at most one advisory, carrying its
id). -/
lemma processed_ids_sublist (vulns : List SnykVulnerability) (pm : List (String × Package)) :
    ((vulns.filterMap fun v => (findMatchingPackage v pm).map (createAdvisory v)).map
        (fun a => a.id)).Sublist
      (vulns.map fun v => v.id) := by
  induction vulns with
  | nil => simp
  | cons v rest ih =>
    cases h : findMatchingPackage v pm with
    | none =>
      simp only [List.filterMap_cons, h, Option.map_none, List.map_cons]
      exact ih.cons _
    | some p =>
      simp only [List.filterMap_cons, h, Option.map_some, List.map_cons, createAdvisory]
      exact ih.cons₂ _

/-- C2 amended. When the input vulnerability records have pairwise distinct
ids, the output contains at most one advisory per distinct
(vulnerability id, package name, package version) triple — each record
yields at most one advisory, so duplicate affected data or duplicate input
packages never multiply advisories; but duplicate records sharing an id
each produce their own advisory (see the counterexample). -/
theorem thm_C2_dedup_amended (vulns : List SnykVulnerability) (packages : List Package)
    (hids : (vulns.map fun v => v.id).Nodup) (i pn : String) :
    ((processVulnerabilities vulns packages).filter
      (fun a => a.id == i && a.package == pn)).length ≤ 1 := by
  unfold processVulnerabilities
  split
  · simp
  · have h1 :
        ((vulns.filterMap fun v =>
            (findMatchingPackage v (mkPackageMap packages)).map (createAdvisory v)).filter
          (fun a => a.id == i && a.package == pn)).length
          = (vulns.filterMap fun v =>
              (findMatchingPackage v (mkPackageMap packages)).map (createAdvisory v)).countP
              (fun a => a.id == i && a.package == pn) :=
      (List.countP_eq_length_filter _ _).symm
    rw [h1]
    have h2 :
        (vulns.filterMap fun v =>
            (findMatchingPackage v (mkPackageMap packages)).map (createAdvisory v)).countP
            (fun a => a.id == i && a.package == pn)
          ≤ (vulns.filterMap fun v =>
              (findMatchingPackage v (mkPackageMap packages)).map (createAdvisory v)).countP
              (fun a => a.id == i) :=
      List.countP_mono_left (by intro a _ hpa; exact (Bool.and_elim_left hpa))
    refine h2.trans ?_
    have h3 :
        (vulns.filterMap fun v =>
            (findMatchingPackage v (mkPackageMap packages)).map (createAdvisory v)).countP
            (fun a => a.id == i)
          = ((vulns.filterMap fun v =>
              (findMatchingPackage v (mkPackageMap packages)).map (createAdvisory v)).map
                (fun a => a.id)).countP (fun s => s == i) := by
      rw [List.countP_map]
      rfl
    rw [h3]
    have h4 := (processed_ids_sublist vulns (mkPackageMap packages)).countP_le (fun s => s == i)
    refine h4.trans ?_
    have h5 : (vulns.map fun v => v.id).countP (fun s => s == i)
        = (vulns.map fun v => v.id).count i := rfl
    rw [h5]
    exact List.nodup_iff_count_le_one.mp hids i

/-- A second record with a distinct id, for the C2 witness. -/
def otherVuln : SnykVulnerability := { id := "SNYK-2" }

/-- C2 witness: the amended dedup bound evaluated on a concrete input with
distinct ids. -/
theorem thm_C2_witness :
    ([dupVuln, otherVuln].map fun v => v.id).Nodup
    ∧ ((processVulnerabilities [dupVuln, otherVuln] [lodashPkg]).filter
        (fun a => a.id == "SNYK-1" && a.package == "lodash")).length ≤ 1 :=
  ⟨by decide, thm_C2_dedup_amended [dupVuln, otherVuln] [lodashPkg] (by decide) "SNYK-1" "lodash"⟩

/-- `Map.set` never empties the map. -/
lemma mapSet_ne_nil (m : List (String × Package)) (k : String) (p : Package) :
    mapSet m k p ≠ [] := by
  cases m with
  | nil => simp [mapSet]
  | cons e rest =>
    cases e with
    | mk k' p' =>
      by_cases h : k' = k <;> simp [mapSet, h]

/-- `Map.set` on a nonempty map keeps the first key in place. -/
lemma mapSet_head_key (m : List (String × Package)) (k : String) (p : Package) (h : m ≠ []) :
    (mapSet m k p).head?.map Prod.fst = m.head?.map Prod.fst := by
  cases m with
  | nil => exact absurd rfl h
  | cons e rest =>
    cases e with
    | mk k' p' =>
      by_cases hk : k' = k <;> simp [mapSet, hk]

/-- Every entry written by the package-map construction is stored under its
own `name@version` key, and `Map.set` preserves that invariant. -/
lemma mapSet_keyed (m : List (String × Package)) (p : Package)
    (hm : ∀ e ∈ m, pkgKey e.2 = e.1) :
    ∀ e ∈ mapSet m (pkgKey p) p, pkgKey e.2 = e.1 := by
  induction m with
  | nil =>
    intro e he
    simp [mapSet] at he
    simp [he]
  | cons f rest ih =>
    cases f with
    | mk k' p' =>
      by_cases hk : k' = pkgKey p
      · intro e he
        simp [mapSet, hk] at he
        rcases he with he | he
        · simp [he, ← hk]
        · exact hm e (List.mem_cons_of_mem _ he)
      · intro e he
        simp only [mapSet, if_neg hk, List.mem_cons] at he
        rcases he with he | he
        · exact hm e (he ▸ List.mem_cons_self _ _)
        · exact ih (fun f hf => hm f (List.mem_cons_of_mem _ hf)) e he

/-- Invariant of the `mkPackageMap` fold: starting from a nonempty,
key-consistent map, the fold keeps the map nonempty and key-consistent and
never changes the first key. -/
lemma mkPackageMap_fold_invariant (ps : List Package) :
    ∀ (m : List (String × Package)), m ≠ [] → (∀ e ∈ m, pkgKey e.2 = e.1) →
      (ps.foldl (fun acc q => mapSet acc (pkgKey q) q) m ≠ []
        ∧ (ps.foldl (fun acc q => mapSet acc (pkgKey q) q) m).head?.map Prod.fst
            = m.head?.map Prod.fst
        ∧ ∀ e ∈ ps.foldl (fun acc q => mapSet acc (pkgKey q) q) m, pkgKey e.2 = e.1) := by
  induction ps with
  | nil => intro m hm hkeys; exact ⟨hm, rfl, hkeys⟩
  | cons q rest ih =>
    intro m hm hkeys
    have h1 := mapSet_ne_nil m (pkgKey q) q
    have h2 := mapSet_keyed m q hkeys
    obtain ⟨a, b, c⟩ := ih (mapSet m (pkgKey q) q) h1 h2
    exact ⟨a, by rw [List.foldl_cons] at *; rw [b, mapSet_head_key m _ _ hm], c⟩

/-- For a nonempty package list, the first value of the processor's package
map exists and is stored under the first package's `name@version` key. -/
lemma mkPackageMap_first (packages : List Package) (h : packages ≠ []) :
    ∃ p, firstMapValue (mkPackageMap packages) = some p
      ∧ pkgKey p = pkgKey (packages.head h) := by
  cases packages with
  | nil => exact absurd rfl h
  | cons q rest =>
    unfold mkPackageMap
    rw [List.foldl_cons]
    have hstart : (mapSet [] (pkgKey q) q) = [(pkgKey q, q)] := rfl
    rw [hstart]
    obtain ⟨hne, hhead, hkeys⟩ :=
      mkPackageMap_fold_invariant rest [(pkgKey q, q)] (by simp) (by simp)
    cases hm : rest.foldl (fun acc p => mapSet acc (pkgKey p) p) [(pkgKey q, q)] with
    | nil => exact absurd hm hne
    | cons e m' =>
      refine ⟨e.2, by simp [firstMapValue, hm], ?_⟩
      have hk : e.1 = pkgKey q := by
        rw [hm] at hhead
        simpa using hhead
      have := hkeys e (by rw [hm]; exact List.mem_cons_self _ _)
      simp only [List.head_cons]
      rw [this, hk]

/-- C8. Every vulnerability record produced by the Snyk client's issue
conversion lacks `packageName` and `packageVersion`, so for every non-empty
package list the processor's matching step falls back to the first package
in the package map; consequently every such vulnerability is attributed to
the first distinct package of the input list (the package stored under the
first `name@version` key), regardless of which package it actually
concerns. -/
theorem thm_C8_first_package_fallback (issues : List SnykIssue) (packages : List Package)
    (h : packages ≠ []) :
    (∀ v ∈ convertIssuesToVulnerabilities issues (mkPackageMap packages),
        v.packageName = none ∧ v.packageVersion = none)
    ∧ ∃ p, firstMapValue (mkPackageMap packages) = some p
        ∧ pkgKey p = pkgKey (packages.head h)
        ∧ (∀ v ∈ convertIssuesToVulnerabilities issues (mkPackageMap packages),
            findMatchingPackage v (mkPackageMap packages) = some p)
        ∧ ∀ a ∈ processVulnerabilities
              (convertIssuesToVulnerabilities issues (mkPackageMap packages)) packages,
            a.package = p.name := by
  have hfields : ∀ v ∈ convertIssuesToVulnerabilities issues (mkPackageMap packages),
      v.packageName = none ∧ v.packageVersion = none := by
    intro v hv
    simp only [convertIssuesToVulnerabilities, List.mem_map] at hv
    obtain ⟨issue, _, rfl⟩ := hv
    exact ⟨rfl, rfl⟩
  obtain ⟨p, hp, hkey⟩ := mkPackageMap_first packages h
  have hmatch : ∀ v ∈ convertIssuesToVulnerabilities issues (mkPackageMap packages),
      findMatchingPackage v (mkPackageMap packages) = some p := by
    intro v hv
    obtain ⟨hn, hver⟩ := hfields v hv
    unfold findMatchingPackage
    rw [hn, hver]
    exact hp
  refine ⟨hfields, p, hp, hkey, hmatch, ?_⟩
  intro a ha
  unfold processVulnerabilities at ha
  split at ha
  · simp at ha
  · simp only [List.mem_filterMap] at ha
    obtain ⟨v, hv, hav⟩ := ha
    rw [hmatch v hv] at hav
    simp only [Option.map_some', Option.some_inj] at hav
    rw [← hav]
    rfl

/-- A concrete Snyk issue for the C8 witness. -/
def issueW : SnykIssue :=
  { id := "SNYK-JS-LODASH-590103"
    attributes := { title := some "Prototype Pollution", severity := some "high" } }

/-- A second concrete package (the non-first one). -/
def axiosPkg : Package := ⟨"axios", "1.0.0"⟩

/-- C8 witness: with two packages, the converted issue is attributed to the
first one. -/
theorem thm_C8_witness :
    ([lodashPkg, axiosPkg] : List Package) ≠ []
    ∧ (∀ v ∈ convertIssuesToVulnerabilities [issueW] (mkPackageMap [lodashPkg, axiosPkg]),
        v.packageName = none ∧ v.packageVersion = none)
    ∧ ∃ p, firstMapValue (mkPackageMap [lodashPkg, axiosPkg]) = some p
        ∧ pkgKey p = pkgKey lodashPkg
        ∧ (∀ v ∈ convertIssuesToVulnerabilities [issueW] (mkPackageMap [lodashPkg, axiosPkg]),
            findMatchingPackage v (mkPackageMap [lodashPkg, axiosPkg]) = some p)
        ∧ ∀ a ∈ processVulnerabilities
              (convertIssuesToVulnerabilities [issueW] (mkPackageMap [lodashPkg, axiosPkg]))
              [lodashPkg, axiosPkg],
            a.package = p.name :=
  ⟨by decide,
    thm_C8_first_package_fallback [issueW] [lodashPkg, axiosPkg] (by decide)⟩

/-- A Snyk record carrying a fatal vendor label together with a valid CVSS
score below the threshold. -/
def snykCriticalLowCvss : SnykVulnerability :=
  { id := "SNYK-2-CRIT", severity := some "critical", cvssScore := some 5 }

/-- C3 counterexample. In the Snyk classifier the CVSS rule runs first: a
record whose vendor severity is the fatal label `"critical"` but whose
CVSS score is a valid 5.0 is classified `warn`, so the vendor-label rule is
not first in priority order for this classifier. -/
theorem thm_C3_snyk_cvss_priority_counterexample :
    Snyk.mapSeverityToLevel snykCriticalLowCvss = AdvisoryLevel.warn := by
  decide

/-- C3 amended. The OSV classifier does apply the vendor-label rule first: a
fatal `database_specific.severity` label yields `fatal` regardless of any
CVSS data. The Snyk classifier applies the CVSS rule first: a record with a
fatal vendor label is classified `fatal` exactly when it does not carry a
valid CVSS score below the threshold (absent or out-of-range scores fall
through to the label). -/
theorem thm_C3_vendor_label_amended :
    (∀ (v : OSVVulnerability) (s : String), dbSeverity v = some s →
        FATAL_SEVERITIES.contains s = true → Osv.mapSeverityToLevel v = .fatal)
    ∧ (∀ (w : SnykVulnerability) (s : String), w.severity = some s →
        Snyk.isFatalSeverity s = true →
        (Snyk.mapSeverityToLevel w = .fatal
          ↔ ∀ c, w.cvssScore = some c → ¬(0 ≤ c ∧ c < CVSS_FATAL_THRESHOLD))) := by
  constructor
  · intro v s hdb hs
    have hne : s ≠ "" := by
      intro h
      rw [h] at hs
      simp [FATAL_SEVERITIES] at hs
    have hfatal : dbSeverityFatal v = true := by
      unfold dbSeverityFatal
      rw [hdb]
      dsimp only
      rw [hs]
      simp [hne]
    unfold Osv.mapSeverityToLevel
    rw [hfatal]
    rfl
  · intro w s hsev hs
    have hcheck : Snyk.severityCheck w = .fatal := by
      simp [Snyk.severityCheck, hsev, hs]
    unfold Snyk.mapSeverityToLevel
    cases hc : w.cvssScore with
    | none =>
      dsimp only
      rw [hcheck]
      simp
    | some c =>
      dsimp only
      by_cases h1 : CVSS_FATAL_THRESHOLD ≤ c ∧ c ≤ 10
      · rw [if_pos h1]
        constructor
        · intro _ c' hc'
          rw [Option.some_inj] at hc'
          subst hc'
          intro ⟨_, hlt⟩
          exact absurd h1.1 (not_le.mpr hlt)
        · intro _; rfl
      · rw [if_neg h1]
        by_cases h2 : 0 ≤ c ∧ c < CVSS_FATAL_THRESHOLD
        · rw [if_pos h2]
          constructor
          · intro h; exact absurd h (by simp)
          · intro hall
            exact absurd h2 (hall c rfl)
        · rw [if_neg h2, hcheck]
          constructor
          · intro _ c' hc'
            rw [Option.some_inj] at hc'
            subst hc'
            exact h2
          · intro _; rfl

/-- An OSV record with a fatal label and a high CVSS score, for the C3
witness. -/
def osvCriticalVuln : OSVVulnerability :=
  { id := "GHSA-crit", database_specific := some ⟨some "CRITICAL"⟩,
    severity := some [⟨"CVSS_V3", "2.0"⟩] }

/-- A Snyk record with a fatal label and no CVSS score, for the C3 witness. -/
def snykHighNoCvss : SnykVulnerability := { id := "SNYK-3-HIGH", severity := some "high" }

/-- C3 witness: both halves of the amended claim applied at concrete
records. -/
theorem thm_C3_witness :
    dbSeverity osvCriticalVuln = some "CRITICAL"
    ∧ FATAL_SEVERITIES.contains "CRITICAL" = true
    ∧ Osv.mapSeverityToLevel osvCriticalVuln = .fatal
    ∧ snykHighNoCvss.severity = some "high"
    ∧ Snyk.isFatalSeverity "high" = true
    ∧ Snyk.mapSeverityToLevel snykHighNoCvss = .fatal :=
  ⟨rfl, by decide, thm_C3_vendor_label_amended.1 osvCriticalVuln "CRITICAL" rfl (by decide),
    rfl, by decide,
    (thm_C3_vendor_label_amended.2 snykHighNoCvss "high" rfl (by decide)).mpr
      (by intro c hc; exact absurd hc (by simp [snykHighNoCvss]))⟩

/-- C6. For every vulnerability record with no fatal vendor label whose
extracted CVSS score is valid (within [0, 10]): a score of exactly 7.0
classifies as fatal (inclusive lower bound), and a valid score strictly
below 7.0 classifies as warn immediately, without reaching the
vendor-severity fallback. This holds for the OSV classifier (highest
extracted score) and for the Snyk classifier (numeric `cvssScore`
field). -/
theorem thm_C6_cvss_threshold :
    (∀ (v : OSVVulnerability) (sevs : List OSVSeverity) (c : ℚ),
        (∀ s, dbSeverity v = some s → FATAL_SEVERITIES.contains s = false) →
        v.severity = some sevs →
        extractHighestCVSSScore sevs = some c →
        0 ≤ c → c ≤ 10 →
        ((c = 7 → Osv.mapSeverityToLevel v = .fatal)
          ∧ (c < 7 → Osv.mapSeverityToLevel v = .warn)))
    ∧ (∀ (w : SnykVulnerability) (c : ℚ),
        (∀ s, w.severity = some s → Snyk.isFatalSeverity s = false) →
        w.cvssScore = some c →
        0 ≤ c → c ≤ 10 →
        ((c = 7 → Snyk.mapSeverityToLevel w = .fatal)
          ∧ (c < 7 → Snyk.mapSeverityToLevel w = .warn))) := by
  constructor
  · intro v sevs c hnofatal hsev hext _ _
    have hdb : dbSeverityFatal v = false := by
      unfold dbSeverityFatal
      cases hd : dbSeverity v with
      | none => rfl
      | some s =>
        dsimp only
        rw [hnofatal s hd]
        simp
    unfold Osv.mapSeverityToLevel
    rw [hdb]
    rw [if_neg Bool.false_ne_true]
    rw [hsev]
    dsimp only
    rw [hext]
    dsimp only
    constructor
    · intro h7
      subst h7
      rw [if_pos (by norm_num [CVSS_FATAL_THRESHOLD])]
    · intro hlt
      rw [if_neg (by rw [CVSS_FATAL_THRESHOLD]; exact not_le.mpr hlt)]
  · intro w c hnofatal hc h0 h10
    unfold Snyk.mapSeverityToLevel
    rw [hc]
    dsimp only
    constructor
    · intro h7
      subst h7
      rw [if_pos (by norm_num [CVSS_FATAL_THRESHOLD])]
    · intro hlt
      rw [if_neg (by rw [CVSS_FATAL_THRESHOLD]; intro hand; exact absurd hand.1 (not_le.mpr hlt)),
        if_pos (by rw [CVSS_FATAL_THRESHOLD]; exact ⟨h0, hlt⟩)]

/-- An OSV record whose only severity entry is the plain score 7.0. -/
def osvCvss7 : OSVVulnerability := { id := "GHSA-7", severity := some [⟨"CVSS_V3", "7.0"⟩] }

/-- An OSV record whose only severity entry is the plain score 6.9. -/
def osvCvss69 : OSVVulnerability := { id := "GHSA-69", severity := some [⟨"CVSS_V3", "6.9"⟩] }

/-- A Snyk record with a low vendor label and score 7.0. -/
def snykCvss7 : SnykVulnerability := { id := "SNYK-7", severity := some "low", cvssScore := some 7 }

/-- C6 witness: the threshold boundary evaluated at concrete records. -/
theorem thm_C6_witness :
    extractHighestCVSSScore [⟨"CVSS_V3", "7.0"⟩] = some 7
    ∧ extractHighestCVSSScore [⟨"CVSS_V3", "6.9"⟩] = some (mkRat 69 10)
    ∧ Osv.mapSeverityToLevel osvCvss7 = .fatal
    ∧ Osv.mapSeverityToLevel osvCvss69 = .warn
    ∧ Snyk.mapSeverityToLevel snykCvss7 = .fatal :=
  ⟨by decide, by decide,
    (thm_C6_cvss_threshold.1 osvCvss7 [⟨"CVSS_V3", "7.0"⟩] 7
      (by intro s hs; exact absurd hs (by simp [dbSeverity, osvCvss7]))
      rfl (by decide) (by norm_num) (by norm_num)).1 rfl,
    (thm_C6_cvss_threshold.1 osvCvss69 [⟨"CVSS_V3", "6.9"⟩] (mkRat 69 10)
      (by intro s hs; exact absurd hs (by simp [dbSeverity, osvCvss69]))
      rfl (by decide) (by decide) (by decide)).2 (by decide),
    (thm_C6_cvss_threshold.2 snykCvss7 7
      (by intro s hs; simp [snykCvss7] at hs; subst hs; decide)
      rfl (by norm_num) (by norm_num)).1 rfl⟩

/-- An OSV record whose only severity entry is a CVSS vector string whose
trailing score 15.0 lies outside [0, 10]. -/
def osvVectorOutOfRange : OSVVulnerability :=
  { id := "TEST-OOR",
    severity := some [⟨"CVSS_V3", "CVSS:3.1/AV:N/AC:L/PR:N/UI:N/S:U/C:H/I:H/A:H/15.0"⟩] }

/-- C7 counterexample. On the CVSS-vector-string parse path an out-of-range
trailing score is not treated as unparseable: the parser returns 15.0
unchecked and the classifier reports fatal, instead of falling through to
vendor severity or the default warn. -/
theorem thm_C7_vector_out_of_range_counterexample :
    parseCVSSScore "CVSS:3.1/AV:N/AC:L/PR:N/UI:N/S:U/C:H/I:H/A:H/15.0" = some 15
    ∧ Osv.mapSeverityToLevel osvVectorOutOfRange = AdvisoryLevel.fatal := by
  exact ⟨by decide, by decide⟩

/-- C7 amended. On the plain-numeric parse path a score outside [0, 10] is
treated as unparseable and never produces fatal by itself (and the Snyk
classifier likewise lets an out-of-range numeric `cvssScore` fall through
to the vendor-severity check); but on the CVSS-vector-string parse path the
trailing number is returned without range validation, so an out-of-range
vector score is used as-is. -/
theorem thm_C7_range_check_amended :
    (∀ (s : String) (q : ℚ), hasSubstr "CVSS:".data s.data = false →
        parseFloatJS s = some q → (q < 0 ∨ 10 < q) → parseCVSSScore s = none)
    ∧ (∀ (s : String) (q : ℚ), hasSubstr "CVSS:".data s.data = true →
        trailingNumber s = some q → parseCVSSScore s = some q)
    ∧ (∀ (w : SnykVulnerability) (c : ℚ), w.cvssScore = some c → (c < 0 ∨ 10 < c) →
        Snyk.mapSeverityToLevel w = Snyk.severityCheck w) := by
  refine ⟨?_, ?_, ?_⟩
  · intro s q hsub hpf hq
    unfold parseCVSSScore
    rw [hsub]
    rw [if_neg Bool.false_ne_true]
    unfold plainNumericScore
    rw [hpf]
    dsimp only
    rw [if_neg ?_]
    rcases hq with hq | hq
    · intro ⟨h0, _⟩; exact absurd h0 (not_le.mpr hq)
    · intro ⟨_, h10⟩; exact absurd h10 (not_le.mpr hq)
  · intro s q hsub htr
    unfold parseCVSSScore
    rw [hsub]
    simp only [if_pos]
    rw [htr]
  · intro w c hc hout
    unfold Snyk.mapSeverityToLevel
    rw [hc]
    dsimp only
    rw [if_neg ?_, if_neg ?_]
    · rcases hout with h | h
      · intro ⟨h0, _⟩; exact absurd h0 (not_le.mpr h)
      · intro ⟨_, h7⟩; rw [CVSS_FATAL_THRESHOLD] at h7; linarith
    · rcases hout with h | h
      · intro ⟨h7, _⟩; rw [CVSS_FATAL_THRESHOLD] at h7; linarith
      · intro ⟨_, h10⟩; exact absurd h10 (not_le.mpr h)

/-- A Snyk record with a fatal label and an out-of-range score 15.0. -/
def snykOutOfRange : SnykVulnerability :=
  { id := "SNYK-OOR", severity := some "critical", cvssScore := some 15 }

/-- C7 witness: both retained halves of the range-check rule at concrete
inputs — the plain-numeric path rejects `"15.0"`, and the Snyk classifier
falls through to the (fatal) label for an out-of-range score. -/
theorem thm_C7_witness :
    hasSubstr "CVSS:".data "15.0".data = false
    ∧ parseFloatJS "15.0" = some 15
    ∧ ((15 : ℚ) < 0 ∨ (10 : ℚ) < 15)
    ∧ parseCVSSScore "15.0" = none
    ∧ snykOutOfRange.cvssScore = some 15
    ∧ Snyk.mapSeverityToLevel snykOutOfRange = Snyk.severityCheck snykOutOfRange :=
  ⟨by decide, by decide, Or.inr (by norm_num),
    thm_C7_range_check_amended.1 "15.0" 15 (by decide) (by decide) (Or.inr (by norm_num)),
    rfl,
    thm_C7_range_check_amended.2.2 snykOutOfRange 15 rfl (Or.inr (by norm_num))⟩

/-- Once the batch loop has thrown, later batches change nothing (they are
never executed in the source). -/
lemma queryInBatches_absorb (batches : List (Except ScanException (List SnykIssue)))
    (e : ScanException) :
    batches.foldl queryInBatchesStep (.error e) = .error e := by
  induction batches with
  | nil => rfl
  | cons b rest ih => simpa [queryInBatchesStep] using ih

/-- If no batch fails with a permission error, the batch loop succeeds
(generic failures are skipped). -/
lemma queryInBatches_ok_of_no_permission (batches : List (Except ScanException (List SnykIssue))) :
    ∀ issues : List SnykIssue,
      (∀ m, Except.error (ScanException.permission m) ∉ batches) →
      ∃ out, batches.foldl queryInBatchesStep (.ok issues) = .ok out := by
  induction batches with
  | nil => intro issues _; exact ⟨issues, rfl⟩
  | cons b rest ih =>
    intro issues hnoperm
    have hrest : ∀ m, Except.error (ScanException.permission m) ∉ rest := by
      intro m hm
      exact hnoperm m (List.mem_cons_of_mem _ hm)
    cases b with
    | ok more =>
      rw [List.foldl_cons]
      exact ih (issues ++ more) hrest
    | error ex =>
      cases ex with
      | permission m =>
        exact absurd
          (List.mem_cons_self (Except.error (ScanException.permission m)) rest)
          (hnoperm m)
      | generic m =>
        rw [List.foldl_cons]
        exact ih issues hrest

/-- If some batch fails with a permission error, the batch loop throws a
permission error. -/
lemma queryInBatches_error_of_permission (batches : List (Except ScanException (List SnykIssue))) :
    ∀ (issues : List SnykIssue) (m : String),
      Except.error (ScanException.permission m) ∈ batches →
      ∃ m', batches.foldl queryInBatchesStep (.ok issues) = .error (.permission m') := by
  induction batches with
  | nil => intro issues m hm; exact absurd hm (List.not_mem_nil _)
  | cons b rest ih =>
    intro issues m hm
    cases b with
    | ok more =>
      rw [List.foldl_cons]
      rcases List.mem_cons.mp hm with hb | hb
      · exact absurd hb (by simp)
      · exact ih (issues ++ more) m hb
    | error ex =>
      cases ex with
      | permission m' =>
        refine ⟨m', ?_⟩
        rw [List.foldl_cons]
        exact queryInBatches_absorb rest (.permission m')
      | generic m' =>
        rw [List.foldl_cons]
        rcases List.mem_cons.mp hm with hb | hb
        · exact absurd hb (by simp)
        · exact ih issues m hb

/-- C1 amended. The top-level scan fails open — any non-permission error
anywhere in the pipeline yields the empty advisory list — and fails closed
exactly for `SnykPermissionError`, which the client raises only for an
HTTP 403 batch response; an HTTP 401 produces an ordinary error that is
logged, skipped, and fails open. -/
theorem thm_C1_scan_fail_open_amended :
    (∀ advisories, scanCatch (.ok advisories) = .ok advisories)
    ∧ (∀ m, scanCatch (.error (.generic m)) = .ok [])
    ∧ (∀ m, scanCatch (.error (.permission m)) = .error (permissionErrorMessage m))
    ∧ (∀ st, batchResponseError 403 st
        = some (.permission "Organization is not allowed to perform this action."))
    ∧ (∀ st, batchResponseError 401 st
        = some (.generic ("Snyk API returned " ++ toString (401 : Nat) ++ ": " ++ st)))
    ∧ (∀ batches packages, (∀ m, Except.error (ScanException.permission m) ∉ batches) →
        (scanModel batches packages).isOk = true)
    ∧ (∀ batches packages m, Except.error (ScanException.permission m) ∈ batches →
        (scanModel batches packages).isOk = false) := by
  refine ⟨fun _ => rfl, fun _ => rfl, fun _ => rfl, fun st => by norm_num [batchResponseError],
    fun st => by norm_num [batchResponseError], ?_, ?_⟩
  · intro batches packages hnoperm
    obtain ⟨out, hout⟩ := queryInBatches_ok_of_no_permission batches [] hnoperm
    unfold scanModel scanPipeline queryInBatches
    rw [hout]
    rfl
  · intro batches packages m hm
    obtain ⟨m', hm'⟩ := queryInBatches_error_of_permission batches [] m hm
    unfold scanModel scanPipeline queryInBatches
    rw [hm']
    rfl

/-- C1 counterexample. An HTTP 401 from the batch endpoint — an
authorization failure per the claim — does not abort the scan: the batch
error is generic, is skipped by the batch loop, and the scan fails open
with the empty advisory list instead of re-throwing. -/
theorem thm_C1_http401_fails_open_counterexample :
    scanModel [batchOutcome 401 "Unauthorized" []] [lodashPkg] = Except.ok [] := by
  decide

/-- C1 witness: the fail-closed branch applied to a concrete batch list
containing a permission error. -/
theorem thm_C1_witness :
    Except.error (ScanException.permission "denied") ∈
      ([Except.error (ScanException.permission "denied")] :
        List (Except ScanException (List SnykIssue)))
    ∧ (scanModel [Except.error (ScanException.permission "denied")] [lodashPkg]).isOk = false :=
  ⟨List.mem_cons_self _ _,
    thm_C1_scan_fail_open_amended.2.2.2.2.2.2
      [Except.error (ScanException.permission "denied")] [lodashPkg] "denied"
      (List.mem_cons_self _ _)⟩

/-- C5. For any operation that fails on its first two invocations and
succeeds on the third, running it under the retry executor with
`maxAttempts = 3` returns the successful result and invokes the operation
exactly 3 times, sleeping `delayMs * 1.5 ^ (attempt - 1)` before each retry
so successive delays strictly increase (for a positive base delay, as
configured); if the failure is non-retryable per the policy, or the last
attempt fails, the last (normalized) error propagates. -/
theorem thm_C5_retry_behavior {α : Type} (op : Nat → Except JSValue α)
    (policy : JSValue → Bool) (d : ℚ) (r1 r2 : JSValue) (v : α)
    (h1 : op 1 = .error r1) (h2 : op 2 = .error r2) (h3 : op 3 = .ok v)
    (hp1 : policy (normalizeError r1) = true) (hp2 : policy (normalizeError r2) = true) :
    withRetry op ⟨3, d, policy⟩
      = ⟨.ok v, 3, [d * (3 / 2 : ℚ) ^ (0 : Nat), d * (3 / 2 : ℚ) ^ (1 : Nat)]⟩
    ∧ (0 < d → d * (3 / 2 : ℚ) ^ (0 : Nat) < d * (3 / 2 : ℚ) ^ (1 : Nat))
    ∧ (∀ (op2 : Nat → Except JSValue α) (r : JSValue) (n : Nat), 1 ≤ n →
        op2 1 = .error r → policy (normalizeError r) = false →
        withRetry op2 ⟨n, d, policy⟩ = ⟨.error (normalizeError r), 1, []⟩)
    ∧ (∀ (op3 : Nat → Except JSValue α) (e1 e2 e3 : JSValue),
        op3 1 = .error e1 → op3 2 = .error e2 → op3 3 = .error e3 →
        policy (normalizeError e1) = true → policy (normalizeError e2) = true →
        (withRetry op3 ⟨3, d, policy⟩).result = .error (normalizeError e3)
          ∧ (withRetry op3 ⟨3, d, policy⟩).calls = 3) := by
  refine ⟨?_, ?_, ?_, ?_⟩
  · unfold withRetry
    simp only [withRetryAux, h1, h2, h3, hp1, hp2]
    norm_num
  · intro hd
    simp only [pow_zero, pow_one, mul_one]
    nlinarith
  · intro op2 r n hn hop hpol
    unfold withRetry
    obtain ⟨f, rfl⟩ : ∃ f, n = f + 1 := ⟨n - 1, by omega⟩
    simp only [withRetryAux, hop, hpol]
    norm_num
  · intro op3 e1 e2 e3 ho1 ho2 ho3 hq1 hq2
    unfold withRetry
    simp only [withRetryAux, ho1, ho2, ho3, hq1, hq2]
    norm_num

/-- The concrete operation for the C5 witness: fails with a string and with
null, then succeeds. -/
def retryOpW : Nat → Except JSValue Nat := fun n =>
  if n = 1 then .error (.strVal "boom1")
  else if n = 2 then .error .nullVal
  else .ok 42

/-- C5 witness: the fail-fail-succeed scenario at a concrete operation and
the default base delay. -/
theorem thm_C5_witness :
    retryOpW 1 = .error (.strVal "boom1")
    ∧ retryOpW 2 = .error .nullVal
    ∧ retryOpW 3 = .ok 42
    ∧ (fun _ : JSValue => true) (normalizeError (.strVal "boom1")) = true
    ∧ (fun _ : JSValue => true) (normalizeError .nullVal) = true
    ∧ withRetry retryOpW ⟨3, 1000, fun _ => true⟩
        = ⟨.ok 42, 3, [1000 * (3 / 2 : ℚ) ^ (0 : Nat), 1000 * (3 / 2 : ℚ) ^ (1 : Nat)]⟩ :=
  ⟨rfl, rfl, rfl, rfl, rfl,
    (thm_C5_retry_behavior retryOpW (fun _ => true) 1000 (.strVal "boom1") .nullVal 42
      rfl rfl rfl rfl rfl).1⟩

/-- If the retry loop (with at least one attempt remaining) ends in an
error, that error is the normalization of what the operation threw on the
final invocation. -/
lemma withRetryAux_error_normalized {α : Type} (op : Nat → Except JSValue α)
    (policy : JSValue → Bool) (d : ℚ) :
    ∀ (fuel attempt : Nat) (lastError : JSValue) (delays : List ℚ) (e : JSValue),
      1 ≤ fuel →
      (withRetryAux op policy d fuel attempt lastError delays).result = .error e →
      ∃ raw, op ((withRetryAux op policy d fuel attempt lastError delays).calls) = .error raw
        ∧ e = normalizeError raw := by
  intro fuel
  induction fuel with
  | zero => intro attempt lastError delays e h; omega
  | succ f ih =>
    intro attempt lastError delays e _ herr
    cases hop : op attempt with
    | ok v =>
      rw [withRetryAux, hop] at herr
      exact absurd herr (by simp)
    | error raw =>
      by_cases hstop : (f = 0 || !policy (normalizeError raw)) = true
      · refine ⟨raw, ?_, ?_⟩
        · rw [withRetryAux, hop]
          simp only [hstop, if_pos]
          exact hop
        · rw [withRetryAux, hop] at herr
          simp only [hstop, if_pos] at herr
          exact (Except.error.inj herr).symm
      · have hf : 1 ≤ f := by
          rcases Nat.eq_zero_or_pos f with hf0 | hf0
          · exact absurd (by simp [hf0]) hstop
          · exact hf0
        have hrec := ih (attempt + 1) (normalizeError raw)
          (d * (3 / 2 : ℚ) ^ (attempt - 1) :: delays) e hf
        rw [withRetryAux, hop]
        simp only [hstop, if_neg, Bool.not_eq_true]
        rw [withRetryAux, hop] at herr
        simp only [hstop, if_neg, Bool.not_eq_true] at herr
        exact hrec herr

/-- `normalizeError` always yields an `Error` object. -/
lemma normalizeError_isErrObj (v : JSValue) : isErrObj (normalizeError v) = true := by
  cases v <;> rfl

/-- C10. When the retried operation throws values that are not `Error`
instances, `withRetry` normalizes them: whatever failure ultimately
propagates is always an `Error`, equal to the normalization of the value
thrown on the final invocation — and when that value was not an `Error`,
the propagated message is its JS `String(...)` rendering. -/
theorem thm_C10_error_normalization {α : Type} (op : Nat → Except JSValue α)
    (config : RetryConfig) (e raw : JSValue)
    (hmax : 1 ≤ config.maxAttempts)
    (herr : (withRetry op config).result = .error e)
    (hlast : op ((withRetry op config).calls) = .error raw) :
    isErrObj e = true
    ∧ e = normalizeError raw
    ∧ (isErrObj raw = false → e = .errObj (jsValueToString raw)) := by
  obtain ⟨raw', hop', hnorm⟩ :=
    withRetryAux_error_normalized op config.shouldRetry config.delayMs
      config.maxAttempts 1 (.errObj "Unknown error") [] e hmax herr
  have hraw : raw' = raw := by
    have := hop'.symm.trans hlast
    exact Except.error.inj this
  subst hraw
  refine ⟨hnorm ▸ normalizeError_isErrObj raw', hnorm, ?_⟩
  intro hno
  rw [hnorm]
  cases raw' with
  | errObj m => exact absurd hno (by simp [isErrObj])
  | strVal s => rfl
  | nullVal => rfl
  | undefinedVal => rfl
  | objVal => rfl

/-- An operation that always throws a bare string. -/
def alwaysStrFail : Nat → Except JSValue Nat := fun _ => .error (.strVal "kaput")

/-- A concrete two-attempt always-retry configuration. -/
def retryCfgW : RetryConfig := ⟨2, 1, fun _ => true⟩

/-- C10 witness: the normalization applied to a concrete run that exhausts
its attempts throwing the string `"kaput"`. -/
theorem thm_C10_witness :
    1 ≤ retryCfgW.maxAttempts
    ∧ (withRetry alwaysStrFail retryCfgW).result = .error (.errObj "kaput")
    ∧ alwaysStrFail ((withRetry alwaysStrFail retryCfgW).calls) = .error (.strVal "kaput")
    ∧ isErrObj (JSValue.errObj "kaput") = true
    ∧ (JSValue.errObj "kaput") = normalizeError (.strVal "kaput")
    ∧ (isErrObj (JSValue.strVal "kaput") = false
        → (JSValue.errObj "kaput") = .errObj (jsValueToString (.strVal "kaput"))) :=
  ⟨by decide, by decide, rfl,
    (thm_C10_error_normalization alwaysStrFail retryCfgW (.errObj "kaput") (.strVal "kaput")
      (by decide) (by decide) rfl).1,
    (thm_C10_error_normalization alwaysStrFail retryCfgW (.errObj "kaput") (.strVal "kaput")
      (by decide) (by decide) rfl).2.1,
    (thm_C10_error_normalization alwaysStrFail retryCfgW (.errObj "kaput") (.strVal "kaput")
      (by decide) (by decide) rfl).2.2⟩
